import Mathlib

/-!
# The Last Bounce API — verification development

Shallow embedding of the verification core of `thelastbounce-api`:
the verifier module (`src/lib/verifier.ts`) and the in-memory rate
limiter (`src/lib/rate-limit.ts`).  Buffers are modelled as lists of
bytes (`List Nat`); only their lengths and emptiness are inspected by
the source.  JavaScript strings are Lean `String`s, and
`String.prototype.startsWith` is modelled as a prefix test on the
character list.
-/

set_option maxRecDepth 4000

namespace TheLastBounce

/-- Model of `String.prototype.startsWith(p)`: `p` is a leading substring
of `s`.  Implemented structurally on the character lists so that it
evaluates by kernel reduction. -/
def strStartsWith (s p : String) : Bool :=
  p.data.isPrefixOf s.data

/-- `VerificationInput` (src/lib/verifier.ts lines 14-20).  `Buffer`
fields are byte lists. -/
structure VerificationInput where
  proof : List Nat
  publicInputs : List String
  tagSignature : List Nat
  challenge : List Nat
  tagUid : String
deriving Repr, DecidableEq

/-- `VerificationResult` (src/lib/verifier.ts lines 22-27). -/
structure VerificationResult where
  authentic : Bool
  proofValid : Bool
  tagAuthValid : Bool
  rootValid : Bool
deriving Repr, DecidableEq

/-- `VALID_ROOTS` (src/lib/verifier.ts lines 31-34): the cached set of
trusted Merkle roots, here as a list of its elements. -/
def VALID_ROOTS : List String :=
  ["0x1234567890abcdef1234567890abcdef1234567890abcdef1234567890abcdef"]

/-- `verifyZKProof` (src/lib/verifier.ts lines 39-73).  The source
checks `proof.length === 0`, `publicInputs.length < 2`, and that the
first two entries start with `"0x"`; the Barretenberg call is commented
out, so on well-formed inputs it returns `true`.  The catch-all match
arm is unreachable (the length guard precedes it). -/
def verifyZKProof (proof : List Nat) (publicInputs : List String) : Bool :=
  if proof.length = 0 then false
  else if publicInputs.length < 2 then false
  else
    match publicInputs with
    | root :: nullifierHash :: _ =>
        if !(strStartsWith root "0x") || !(strStartsWith nullifierHash "0x") then false
        else true
    | _ => false

/-- Instrumented variant of `verifyZKProof`: the second component
records whether the underlying proof-system verifier (the Barretenberg
backend, commented out at src/lib/verifier.ts lines 63-66) was invoked.
In the source it never is, on any path. -/
def verifyZKProofT (proof : List Nat) (publicInputs : List String) : Bool × Bool :=
  if proof.length = 0 then (false, false)
  else if publicInputs.length < 2 then (false, false)
  else
    match publicInputs with
    | root :: nullifierHash :: _ =>
        if !(strStartsWith root "0x") || !(strStartsWith nullifierHash "0x") then (false, false)
        else (true, false)
    | _ => (false, false)

/-- `verifyTagAuth` (src/lib/verifier.ts lines 78-111).  JavaScript
`!tagUid` is true exactly when the string is empty. -/
def verifyTagAuth (tagUid : String) (challenge : List Nat) (signature : List Nat) : Bool :=
  if tagUid = "" || challenge.length = 0 || signature.length = 0 then false
  else if signature.length ≠ 16 then false
  else true

/-- `verifyRoot` (src/lib/verifier.ts lines 116-123):
`VALID_ROOTS.has(root)`. -/
def verifyRoot (root : String) : Bool :=
  VALID_ROOTS.contains root

/-- `verifyProof` (src/lib/verifier.ts lines 128-145).  The source
destructures `const [root] = input.publicInputs`; when `publicInputs`
is empty, `root` is `undefined` and `VALID_ROOTS.has(undefined)` is
`false`, modelled by the `Option` match. -/
def verifyProof (input : VerificationInput) : VerificationResult :=
  let proofValid := verifyZKProof input.proof input.publicInputs
  let tagAuthValid := verifyTagAuth input.tagUid input.challenge input.tagSignature
  let rootValid :=
    match input.publicInputs.head? with
    | some root => verifyRoot root
    | none => false
  { authentic := proofValid && tagAuthValid && rootValid
    proofValid := proofValid
    tagAuthValid := tagAuthValid
    rootValid := rootValid }

/-- The try block of `verifyZKProof` with an explicit fault channel.
`fault = some e` models a verifier-internal error `e` thrown by the
production proof-system call (the Barretenberg invocation commented out
at src/lib/verifier.ts lines 63-66, e.g. a corrupt verification key);
as written the block cannot throw, which is `fault = none`. -/
def verifyZKProofTry (proof : List Nat) (publicInputs : List String)
    (fault : Option String) : Except String Bool :=
  if proof.length = 0 then .ok false
  else if publicInputs.length < 2 then .ok false
  else
    match publicInputs with
    | root :: nullifierHash :: _ =>
        if !(strStartsWith root "0x") || !(strStartsWith nullifierHash "0x") then .ok false
        else
          match fault with
          | some e => .error e
          | none => .ok true
    | _ => .ok false

/-- The catch handler of `verifyZKProof` (src/lib/verifier.ts lines
69-72): any error thrown inside the try block is logged and mapped to
the boolean `false`, the same channel as an invalid proof. -/
def verifyZKProofCaught (proof : List Nat) (publicInputs : List String)
    (fault : Option String) : Bool :=
  match verifyZKProofTry proof publicInputs fault with
  | .ok b => b
  | .error _ => false

/-! ## Rate limiter (src/lib/rate-limit.ts)

The in-memory `Map<string, { count, resetAt }>` is modelled as an
association list; `Map.get`/`Map.set`/`Map.delete` become lookup,
in-place replacement and filtering on it.  `rateLimit` threads the
store explicitly: it takes the store before the call and returns the
result together with the store after the call. -/

/-- `RateLimitConfig` (src/lib/rate-limit.ts lines 9-12). -/
structure RateLimitConfig where
  maxRequests : Nat
  windowMs : Nat
deriving Repr, DecidableEq

/-- `RateLimitResult` (src/lib/rate-limit.ts lines 14-18). -/
structure RateLimitResult where
  success : Bool
  remaining : Nat
  resetAt : Nat
deriving Repr, DecidableEq

/-- A `{ count, resetAt }` record of the `requests` map
(src/lib/rate-limit.ts line 21). -/
structure RLRecord where
  count : Nat
  resetAt : Nat
deriving Repr, DecidableEq

/-- `DEFAULT_CONFIG` (src/lib/rate-limit.ts lines 23-26): 100 requests
per 60,000 ms window. -/
def DEFAULT_CONFIG : RateLimitConfig := ⟨100, 60000⟩

/-- The `requests` map, as an association list from client id to
record. -/
abbrev RLStore := List (String × RLRecord)

/-- `requests.get(clientId)`. -/
def storeGet (st : RLStore) (clientId : String) : Option RLRecord :=
  (st.find? fun p => p.1 == clientId).map Prod.snd

/-- `requests.set(clientId, record)`: replace an existing binding in
place, else append. -/
def storeSet (st : RLStore) (clientId : String) (record : RLRecord) : RLStore :=
  if st.any (fun p => p.1 == clientId) then
    st.map fun p => if p.1 == clientId then (clientId, record) else p
  else
    st ++ [(clientId, record)]

/-- The cleanup loop of `rateLimit` (src/lib/rate-limit.ts lines 48-52):
delete every entry whose `resetAt < now`. -/
def cleanupExpired (now : Nat) (st : RLStore) : RLStore :=
  st.filter fun p => decide (now ≤ p.2.resetAt)

/-- `rateLimit` (src/lib/rate-limit.ts lines 40-89), with the client id
already extracted and `Date.now()` passed in as `now`.  Returns the
`RateLimitResult` and the updated store. -/
def rateLimit (clientId : String) (now : Nat) (config : RateLimitConfig)
    (st : RLStore) : RateLimitResult × RLStore :=
  let st1 := cleanupExpired now st
  match storeGet st1 clientId with
  | none =>
      let record : RLRecord := ⟨1, now + config.windowMs⟩
      (⟨true, config.maxRequests - 1, record.resetAt⟩, storeSet st1 clientId record)
  | some record =>
      if record.resetAt < now then
        let record' : RLRecord := ⟨1, now + config.windowMs⟩
        (⟨true, config.maxRequests - 1, record'.resetAt⟩, storeSet st1 clientId record')
      else if config.maxRequests ≤ record.count then
        (⟨false, 0, record.resetAt⟩, st1)
      else
        let record' : RLRecord := ⟨record.count + 1, record.resetAt⟩
        (⟨true, config.maxRequests - record'.count, record'.resetAt⟩,
         storeSet st1 clientId record')

/-- Run a sequence of requests from one client at the given timestamps,
threading the store; collects the per-request results. -/
def runRequests (clientId : String) (config : RateLimitConfig) :
    List Nat → RLStore → List RateLimitResult × RLStore
  | [], st => ([], st)
  | t :: ts, st =>
      let step := rateLimit clientId t config st
      let rest := runRequests clientId config ts step.2
      (step.1 :: rest.1, rest.2)

/-! ## Shared lemmas -/

/-- The plain and instrumented membership-proof checks agree on the
boolean result. -/
theorem verifyZKProof_eq_fst (proof : List Nat) (publicInputs : List String) :
    verifyZKProof proof publicInputs = (verifyZKProofT proof publicInputs).1 := by
  unfold verifyZKProof verifyZKProofT
  split
  · rfl
  · split
    · rfl
    · split
      · split
        · rfl
        · rfl
      · rfl

/-- On a non-empty proof buffer and first two entries starting with
`"0x"`, the format check of `verifyZKProof` passes and the function
returns `true`. -/
theorem verifyZKProof_marked_true (proof : List Nat)
    (root nullifierHash : String) (rest : List String)
    (hp : proof ≠ [])
    (h0 : strStartsWith root "0x" = true)
    (h1 : strStartsWith nullifierHash "0x" = true) :
    verifyZKProof proof (root :: nullifierHash :: rest) = true := by
  unfold verifyZKProof
  simp [h0, h1, List.length_eq_zero, hp, Nat.not_lt.mpr (by omega : 2 ≤ rest.length + 1 + 1)]

/-! ## Claims -/

/-- C1: for every verification request, the result of `verifyProof`
satisfies `authentic = proofValid && tagAuthValid && rootValid`, and all
three sub-check booleans are fields of the returned result. -/
theorem c1_authentic_is_conjunction (input : VerificationInput) :
    (verifyProof input).authentic =
      ((verifyProof input).proofValid && (verifyProof input).tagAuthValid &&
        (verifyProof input).rootValid) := rfl

/-- C3: `verifyTagAuth` returns `false` (and, being a total function,
raises no exception) whenever `tagUid` is empty, or `challenge` is
empty, or the signature is not exactly 16 bytes. -/
theorem c3_tag_auth_rejects_malformed (tagUid : String)
    (challenge signature : List Nat)
    (h : tagUid = "" ∨ challenge = [] ∨ signature.length ≠ 16) :
    verifyTagAuth tagUid challenge signature = false := by
  rcases h with h | h | h
  · simp [verifyTagAuth, h]
  · simp [verifyTagAuth, h]
  · simp [verifyTagAuth, h]

/-- Witness for C3 at a concrete malformed input: a 17-byte signature
is rejected. -/
theorem c3_tag_auth_rejects_malformed_witness :
    (List.replicate 17 (0 : Nat)).length ≠ 16 ∧
      verifyTagAuth "E004012345678910" [1, 2, 3] (List.replicate 17 0) = false :=
  ⟨by decide,
   c3_tag_auth_rejects_malformed "E004012345678910" [1, 2, 3]
     (List.replicate 17 0) (Or.inr (Or.inr (by decide)))⟩

/-- C8: `verifyRoot` is a pure total function returning `true` exactly
on members of the trusted-root set; an unknown root yields the ordinary
negative result `false`. -/
theorem c8_verifyRoot_iff_member (root : String) :
    verifyRoot root = true ↔ root ∈ VALID_ROOTS := by
  simp [verifyRoot]

/-- C5 counterexample: entries that start with `"0x"` but continue with
non-hexadecimal characters are accepted — `verifyZKProof` returns
`true`, not `false` as the claim states. -/
theorem c5_counterexample :
    verifyZKProof [1] ["0xZZ!!", "0xgg"] = true := rfl

/-- C5 amended: `verifyZKProof` performs no hex-digit validation; any
first two entries starting with `"0x"` pass the format check (given a
non-empty proof buffer), whatever characters follow the prefix. -/
theorem c5_amended_only_0x_checked (proof : List Nat)
    (root nullifierHash : String) (rest : List String)
    (hp : proof ≠ [])
    (h0 : strStartsWith root "0x" = true)
    (h1 : strStartsWith nullifierHash "0x" = true) :
    verifyZKProof proof (root :: nullifierHash :: rest) = true :=
  verifyZKProof_marked_true proof root nullifierHash rest hp h0 h1

/-- Witness for C5 amended, at an entry with non-hex characters after
the prefix. -/
theorem c5_amended_only_0x_checked_witness :
    ([1] : List Nat) ≠ [] ∧ strStartsWith "0xZZ" "0x" = true ∧
      strStartsWith "0xQQQQ" "0x" = true ∧
      verifyZKProof [1] ["0xZZ", "0xQQQQ"] = true :=
  ⟨by decide, by decide, by decide,
   c5_amended_only_0x_checked [1] "0xZZ" "0xQQQQ" [] (by decide) (by decide) (by decide)⟩

/-- C4: on an empty proof buffer, fewer than 2 public inputs, or a
first or second entry not starting with `"0x"`, the membership-proof
check returns `proofValid = false` and the underlying proof-system
verifier is not invoked. -/
theorem c4_zkproof_fail_fast (proof : List Nat) (publicInputs : List String)
    (h : proof = [] ∨ publicInputs.length < 2 ∨
      ∃ root nullifierHash rest, publicInputs = root :: nullifierHash :: rest ∧
        (strStartsWith root "0x" = false ∨ strStartsWith nullifierHash "0x" = false)) :
    verifyZKProof proof publicInputs = false ∧
      verifyZKProofT proof publicInputs = (false, false) := by
  have key : verifyZKProofT proof publicInputs = (false, false) := by
    rcases h with h | h | ⟨root, nullifierHash, rest, he, hsw⟩
    · subst h; rfl
    · unfold verifyZKProofT
      rcases Nat.eq_zero_or_pos proof.length with hp | hp
      · rw [if_pos hp]
      · rw [if_neg (by omega), if_pos h]
    · subst he
      unfold verifyZKProofT
      split
      · rfl
      · split
        · rfl
        · rcases hsw with hs | hs <;> simp [hs]
  exact ⟨by rw [verifyZKProof_eq_fst, key], key⟩

/-- Witness for C4 at the empty proof buffer. -/
theorem c4_zkproof_fail_fast_witness :
    ([] : List Nat) = [] ∧
      verifyZKProof [] ["0xaa", "0xbb"] = false ∧
      verifyZKProofT [] ["0xaa", "0xbb"] = (false, false) := by
  refine ⟨rfl, ?_, ?_⟩ <;>
    cases c4_zkproof_fail_fast [] ["0xaa", "0xbb"] (Or.inl rfl) with
    | intro l r => first | exact l | exact r

/-- C9: the code violates the claim.  A verifier-internal fault thrown
inside the try block of `verifyZKProof` (modelled by the fault channel
of `verifyZKProofTry`) is caught and mapped to the boolean `false` —
the same value returned for a well-formed but unproven input — rather
than being surfaced through a distinct error channel. -/
theorem c9_internal_fault_mapped_to_false :
    verifyZKProofCaught [1] ["0xaa", "0xbb"] (some "corrupt verification key") = false ∧
      verifyZKProofCaught [1] ["0xaa", "0xbb"] none = true ∧
      verifyZKProofCaught [1] ["0xaa", "0xbb"] (some "corrupt verification key") =
        verifyZKProofCaught [] ["0xaa", "0xbb"] none :=
  ⟨rfl, rfl, rfl⟩

/-- C2: on any input with a non-empty proof buffer, at least two public
inputs each starting with `"0x"`, a non-empty `tagUid`, a non-empty
challenge and a 16-byte signature, `verifyProof` reports
`proofValid = true` and `tagAuthValid = true` regardless of the actual
bytes, and `authentic` equals the trusted-root membership of
`publicInputs[0]` alone. -/
theorem c2_crypto_content_never_checked (input : VerificationInput)
    (h1 : input.proof ≠ [])
    (h2 : 2 ≤ input.publicInputs.length)
    (h3 : ∀ s ∈ input.publicInputs, strStartsWith s "0x" = true)
    (h4 : input.tagUid ≠ "")
    (h5 : input.challenge ≠ [])
    (h6 : input.tagSignature.length = 16) :
    (verifyProof input).proofValid = true ∧
      (verifyProof input).tagAuthValid = true ∧
      (verifyProof input).authentic = verifyRoot (input.publicInputs.headD "") := by
  obtain ⟨pf, pis, sig, ch, uid⟩ := input
  simp only at h1 h2 h3 h4 h5 h6
  match pis, h2, h3 with
  | root :: nullifierHash :: rest, _, h3 =>
    have hroot : strStartsWith root "0x" = true := h3 root (by simp)
    have hnh : strStartsWith nullifierHash "0x" = true := h3 nullifierHash (by simp)
    have hzk : verifyZKProof pf (root :: nullifierHash :: rest) = true :=
      verifyZKProof_marked_true pf root nullifierHash rest h1 hroot hnh
    have hta : verifyTagAuth uid ch sig = true := by
      simp [verifyTagAuth, h4, h6, List.length_eq_zero, h5]
    refine ⟨?_, ?_, ?_⟩ <;>
      simp [verifyProof, hzk, hta]

/-- Witness for C2: arbitrary garbage bytes in proof, challenge and
signature are accepted; authenticity reduces to root membership. -/
theorem c2_crypto_content_never_checked_witness :
    (let input : VerificationInput :=
      ⟨[7], ["0xdeadbeef", "0x00"], List.replicate 16 9, [42], "E004012345678910"⟩
     (verifyProof input).proofValid = true ∧
       (verifyProof input).tagAuthValid = true ∧
       (verifyProof input).authentic = verifyRoot (input.publicInputs.headD "")) :=
  c2_crypto_content_never_checked
    ⟨[7], ["0xdeadbeef", "0x00"], List.replicate 16 9, [42], "E004012345678910"⟩
    (by decide) (by decide) (by decide) (by decide) (by decide) (by decide)

/-! ## Rate-limiter lemmas -/

/-- A request from a client with no record: fresh window. -/
theorem rateLimit_empty (c : String) (now : Nat) (config : RateLimitConfig) :
    rateLimit c now config [] =
      (⟨true, config.maxRequests - 1, now + config.windowMs⟩,
       [(c, ⟨1, now + config.windowMs⟩)]) := by
  simp [rateLimit, cleanupExpired, storeGet, storeSet, List.find?]

/-- A request inside the live window with the count under the limit:
the count increments and the request is allowed. -/
theorem rateLimit_increment (c : String) (now k R maxR w : Nat)
    (h1 : now ≤ R) (h2 : k < maxR) :
    rateLimit c now ⟨maxR, w⟩ [(c, ⟨k, R⟩)] =
      (⟨true, maxR - (k + 1), R⟩, [(c, ⟨k + 1, R⟩)]) := by
  simp [rateLimit, cleanupExpired, storeGet, storeSet, List.find?, h1,
    Nat.not_lt.mpr h1, Nat.not_le.mpr h2]

/-- A request inside the live window once the count has reached the
limit: rejected with `remaining = 0`, store unchanged. -/
theorem rateLimit_reject (c : String) (now k R maxR w : Nat)
    (h1 : now ≤ R) (h2 : maxR ≤ k) :
    rateLimit c now ⟨maxR, w⟩ [(c, ⟨k, R⟩)] =
      (⟨false, 0, R⟩, [(c, ⟨k, R⟩)]) := by
  simp [rateLimit, cleanupExpired, storeGet, storeSet, List.find?, h1,
    Nat.not_lt.mpr h1, h2]

/-- A request strictly after `resetAt`: the stale record is evicted by
the cleanup loop and a fresh window starts. -/
theorem rateLimit_expired (c : String) (now k R maxR w : Nat)
    (h : R < now) :
    rateLimit c now ⟨maxR, w⟩ [(c, ⟨k, R⟩)] =
      (⟨true, maxR - 1, now + w⟩, [(c, ⟨1, now + w⟩)]) := by
  simp [rateLimit, cleanupExpired, storeGet, storeSet, List.find?,
    Nat.not_le.mpr h]

/-- `runRequests` over a concatenation: run the first list, then the
second from the intermediate store. -/
theorem runRequests_append (c : String) (config : RateLimitConfig) :
    ∀ (l1 l2 : List Nat) (st : RLStore),
      runRequests c config (l1 ++ l2) st =
        ((runRequests c config l1 st).1 ++
           (runRequests c config l2 (runRequests c config l1 st).2).1,
         (runRequests c config l2 (runRequests c config l1 st).2).2) := by
  intro l1
  induction l1 with
  | nil => intro l2 st; simp [runRequests]
  | cons t ts ih =>
      intro l2 st
      simp [runRequests, ih]

/-- One result per request. -/
theorem runRequests_length (c : String) (config : RateLimitConfig) :
    ∀ (ts : List Nat) (st : RLStore),
      (runRequests c config ts st).1.length = ts.length := by
  intro ts
  induction ts with
  | nil => intro st; rfl
  | cons t rest ih => intro st; simp [runRequests, ih]

/-- Running requests at timestamps inside the live window, from a
single-client store whose count leaves room for all of them: every
request is allowed, and the count advances by the number of requests
while `resetAt` stays fixed. -/
theorem runRequests_within_window (c : String) (maxR w R : Nat) :
    ∀ (ts : List Nat) (k : Nat), (∀ t ∈ ts, t ≤ R) → k + ts.length ≤ maxR →
      (runRequests c ⟨maxR, w⟩ ts [(c, ⟨k, R⟩)]).2 = [(c, ⟨k + ts.length, R⟩)] ∧
        ∀ r ∈ (runRequests c ⟨maxR, w⟩ ts [(c, ⟨k, R⟩)]).1, r.success = true := by
  intro ts
  induction ts with
  | nil =>
      intro k _ _
      exact ⟨by simp [runRequests], by simp [runRequests]⟩
  | cons t rest ih =>
      intro k hin hle
      have hk : k < maxR := by
        have := hle
        simp [List.length_cons] at this
        omega
      have hstep := rateLimit_increment c t k R maxR w (hin t (by simp)) hk
      have hrest := ih (k + 1) (fun x hx => hin x (by simp [hx]))
        (by simp [List.length_cons] at hle ⊢; omega)
      constructor
      · simp only [runRequests, hstep]
        rw [hrest.1]
        simp [List.length_cons]
        omega
      · intro r hr
        simp only [runRequests, hstep, List.mem_cons] at hr
        rcases hr with hr | hr
        · rw [hr]
        · exact hrest.2 r hr

/-- C6: with the default limit of 100 requests per 60,000 ms, a single
client whose 101 request timestamps all fall strictly before the
window's `resetAt` is allowed on the first 100 requests and rejected
with `remaining = 0` on the 101st; a further request strictly after
`resetAt` starts a fresh window: allowed, count 1, new `resetAt`. -/
theorem c6_window_scenario (c : String) (t0 tLast : Nat) (ts : List Nat)
    (hlen : ts.length = 100)
    (hin : ∀ t ∈ ts, t < t0 + 60000)
    (hlate : t0 + 60000 < tLast) :
    ((runRequests c DEFAULT_CONFIG (t0 :: ts) []).1.take 100).all
        (fun r => r.success) = true ∧
      (runRequests c DEFAULT_CONFIG (t0 :: ts) []).1.drop 100 =
        [⟨false, 0, t0 + 60000⟩] ∧
      rateLimit c tLast DEFAULT_CONFIG (runRequests c DEFAULT_CONFIG (t0 :: ts) []).2 =
        (⟨true, 99, tLast + 60000⟩, [(c, ⟨1, tLast + 60000⟩)]) := by
  have hcfg : DEFAULT_CONFIG = (⟨100, 60000⟩ : RateLimitConfig) := rfl
  set R := t0 + 60000 with hR
  have hlen99 : (ts.take 99).length = 99 := by simp [hlen]
  obtain ⟨tl, htl⟩ : ∃ tl, ts.drop 99 = [tl] := by
    apply List.length_eq_one.mp
    simp [hlen]
  have hsplit : ts.take 99 ++ [tl] = ts := by
    rw [← htl]; exact List.take_append_drop 99 ts
  have htlR : tl ≤ R :=
    le_of_lt (hin tl (List.drop_subset 99 ts (by simp [htl])))
  have hw := runRequests_within_window c 100 60000 R (ts.take 99) 1
    (fun t ht => le_of_lt (hin t (List.take_subset 99 ts ht)))
    (by rw [hlen99])
  have hfirst : rateLimit c t0 DEFAULT_CONFIG [] = (⟨true, 99, R⟩, [(c, ⟨1, R⟩)]) := by
    rw [hcfg, rateLimit_empty]; rfl
  have hl99 : (runRequests c ⟨100, 60000⟩ (ts.take 99) [(c, ⟨1, R⟩)]).1.length = 99 := by
    rw [runRequests_length, hlen99]
  have hw1 : (runRequests c ⟨100, 60000⟩ (ts.take 99) [(c, ⟨1, R⟩)]).2 =
      [(c, ⟨100, R⟩)] := by
    rw [hw.1, hlen99]
  have hrun : runRequests c DEFAULT_CONFIG (t0 :: ts) [] =
      (⟨true, 99, R⟩ ::
        ((runRequests c ⟨100, 60000⟩ (ts.take 99) [(c, ⟨1, R⟩)]).1 ++ [⟨false, 0, R⟩]),
       [(c, ⟨100, R⟩)]) := by
    conv_lhs => rw [show t0 :: ts = t0 :: (ts.take 99 ++ [tl]) from by rw [hsplit]]
    simp only [runRequests]
    rw [hfirst, hcfg, runRequests_append, hw1]
    simp only [runRequests]
    rw [rateLimit_reject c tl 100 R 100 60000 htlR (by omega)]
  set l99 := (runRequests c ⟨100, 60000⟩ (ts.take 99) [(c, ⟨1, R⟩)]).1 with hsetl
  refine ⟨?_, ?_, ?_⟩
  · rw [hrun, show (100 : Nat) = l99.length + 1 from by omega,
      List.take_succ_cons, List.take_left, List.all_cons]
    simp only [Bool.and_eq_true]
    exact ⟨trivial, List.all_eq_true.mpr fun r hr => hw.2 r hr⟩
  · rw [hrun, show (100 : Nat) = l99.length + 1 from by omega,
      List.drop_succ_cons, List.drop_left]
  · rw [hrun]
    rw [hcfg, rateLimit_expired c tLast 100 R 100 60000 hlate]

/-- Witness for C6: 101 requests at time 0, then one at time 70000. -/
theorem c6_window_scenario_witness :
    ((List.replicate 100 (0 : Nat)).length = 100 ∧
      (∀ t ∈ List.replicate 100 (0 : Nat), t < 0 + 60000) ∧ 0 + 60000 < 70000) ∧
    ((runRequests "client" DEFAULT_CONFIG (0 :: List.replicate 100 0) []).1.take 100).all
        (fun r => r.success) = true ∧
      (runRequests "client" DEFAULT_CONFIG (0 :: List.replicate 100 0) []).1.drop 100 =
        [⟨false, 0, 0 + 60000⟩] ∧
      rateLimit "client" 70000 DEFAULT_CONFIG
          (runRequests "client" DEFAULT_CONFIG (0 :: List.replicate 100 0) []).2 =
        (⟨true, 99, 70000 + 60000⟩, [("client", ⟨1, 70000 + 60000⟩)]) :=
  ⟨⟨by decide, by decide, by decide⟩,
   c6_window_scenario "client" 0 70000 (List.replicate 100 0)
     (by decide) (by decide) (by decide)⟩

/-- `storeGet` on a cons. -/
theorem storeGet_cons (p : String × RLRecord) (t : RLStore) (c : String) :
    storeGet (p :: t) c = if p.1 = c then some p.2 else storeGet t c := by
  by_cases h : p.1 = c <;> simp [storeGet, List.find?_cons, h]

/-- `cleanupExpired` on a cons. -/
theorem cleanupExpired_cons (now : Nat) (p : String × RLRecord) (t : RLStore) :
    cleanupExpired now (p :: t) =
      if now ≤ p.2.resetAt then p :: cleanupExpired now t
      else cleanupExpired now t := by
  by_cases h : now ≤ p.2.resetAt <;> simp [cleanupExpired, List.filter_cons, h]

/-- A client with no entry in the store looks up to `none`. -/
theorem storeGet_eq_none_of_not_mem (st : RLStore) (c : String)
    (h : c ∉ st.map Prod.fst) : storeGet st c = none := by
  induction st with
  | nil => rfl
  | cons p t ih =>
      simp only [List.map_cons, List.mem_cons, not_or] at h
      rw [storeGet_cons, if_neg (fun hpc => h.1 hpc.symm)]
      exact ih h.2

/-- The cleanup loop removes a client's expired record: afterwards the
lookup is `none` (keys assumed unique, as a JavaScript `Map` guarantees). -/
theorem storeGet_cleanupExpired_none (now : Nat) (st : RLStore) (c : String)
    (v : RLRecord)
    (hnd : (st.map Prod.fst).Nodup)
    (hget : storeGet st c = some v)
    (hlt : v.resetAt < now) :
    storeGet (cleanupExpired now st) c = none := by
  induction st with
  | nil => simp [storeGet, List.find?] at hget
  | cons p t ih =>
      rw [List.map_cons] at hnd
      have hnd' := List.nodup_cons.mp hnd
      by_cases hpc : p.1 = c
      · have hv : p.2 = v := by
          rw [storeGet_cons, if_pos hpc] at hget
          exact Option.some.inj hget
        have hnotin : c ∉ t.map Prod.fst := by rw [← hpc]; exact hnd'.1
        rw [cleanupExpired_cons, if_neg (by rw [hv]; omega)]
        refine storeGet_eq_none_of_not_mem _ _ fun hmem => hnotin ?_
        simp only [cleanupExpired, List.mem_map] at hmem ⊢
        obtain ⟨q, hq, hfst⟩ := hmem
        exact ⟨q, (List.mem_filter.mp hq).1, hfst⟩
      · have hget' : storeGet t c = some v := by
          rwa [storeGet_cons, if_neg hpc] at hget
        have htail := ih hnd'.2 hget'
        rw [cleanupExpired_cons]
        by_cases hkeep : now ≤ p.2.resetAt
        · rw [if_pos hkeep, storeGet_cons, if_neg hpc]
          exact htail
        · rw [if_neg hkeep]
          exact htail

/-- After `requests.set(clientId, record)`, looking up the client
returns that record. -/
theorem storeGet_storeSet (st : RLStore) (c : String) (r : RLRecord) :
    storeGet (storeSet st c r) c = some r := by
  induction st with
  | nil => simp [storeSet, storeGet, List.find?]
  | cons p t ih =>
      by_cases hpc : p.1 = c
      · have hany : (p :: t).any (fun q => q.1 == c) = true := by
          simp [List.any_cons, hpc]
        simp only [storeSet, hany, if_true, List.map_cons]
        rw [if_pos (by simp [hpc]), storeGet_cons, if_pos rfl]
      · by_cases hany : t.any (fun q => q.1 == c) = true
        · have hany' : (p :: t).any (fun q => q.1 == c) = true := by
            simp [List.any_cons, hany]
          have ht : storeSet t c r =
              t.map fun q => if q.1 == c then (c, r) else q := by
            simp [storeSet, hany]
          simp only [storeSet, hany', if_true, List.map_cons]
          rw [if_neg (by simp [hpc]), storeGet_cons, if_neg hpc, ← ht]
          exact ih
        · have hany' : (p :: t).any (fun q => q.1 == c) = false := by
            simp [List.any_cons, hpc, hany]
          have ht : storeSet t c r = t ++ [(c, r)] := by
            simp [storeSet, hany]
          simp only [storeSet, hany', Bool.false_eq_true, if_false, List.cons_append]
          rw [storeGet_cons, if_neg hpc, ← ht]
          exact ih

/-- C7 counterexample: at the boundary `now = resetAt` (here both 50)
the record is NOT re-initialized — the request is counted against the
old window and, the count having reached the limit, rejected, contrary
to the claimed `now >= resetAt` reset. -/
theorem c7_counterexample :
    rateLimit "a" 50 ⟨100, 60000⟩ [("a", ⟨100, 50⟩)] =
      (⟨false, 0, 50⟩, [("a", ⟨100, 50⟩)]) := by decide

/-- C7 amended: a request arriving strictly after `resetAt`
(`now > resetAt`) re-initializes the client's record to `count = 1` and
`resetAt = now + windowDuration`, and is allowed with
`remaining = maxRequests - 1`; at `now = resetAt` the old window still
applies. -/
theorem c7_amended_reset_strictly_after (clientId : String) (now : Nat)
    (config : RateLimitConfig) (st : RLStore) (record : RLRecord)
    (hnd : (st.map Prod.fst).Nodup)
    (hget : storeGet st clientId = some record)
    (hlt : record.resetAt < now) :
    (rateLimit clientId now config st).1 =
      ⟨true, config.maxRequests - 1, now + config.windowMs⟩ ∧
      storeGet (rateLimit clientId now config st).2 clientId =
        some ⟨1, now + config.windowMs⟩ := by
  have hclean : storeGet (cleanupExpired now st) clientId = none :=
    storeGet_cleanupExpired_none now st clientId record hnd hget hlt
  simp only [rateLimit, hclean]
  exact ⟨trivial, storeGet_storeSet _ _ _⟩

/-- Witness for C7 amended: an expired record is replaced by a fresh
window. -/
theorem c7_amended_reset_strictly_after_witness :
    ((([("a", (⟨100, 60000⟩ : RLRecord))].map Prod.fst).Nodup ∧
        storeGet [("a", ⟨100, 60000⟩)] "a" = some ⟨100, 60000⟩ ∧
        (60000 : Nat) < 70000) ∧
      (rateLimit "a" 70000 DEFAULT_CONFIG [("a", ⟨100, 60000⟩)]).1 =
        ⟨true, DEFAULT_CONFIG.maxRequests - 1, 70000 + DEFAULT_CONFIG.windowMs⟩ ∧
        storeGet (rateLimit "a" 70000 DEFAULT_CONFIG [("a", ⟨100, 60000⟩)]).2 "a" =
          some ⟨1, 70000 + DEFAULT_CONFIG.windowMs⟩) :=
  ⟨⟨by decide, by decide, by decide⟩,
   c7_amended_reset_strictly_after "a" 70000 DEFAULT_CONFIG
     [("a", ⟨100, 60000⟩)] ⟨100, 60000⟩ (by decide) (by decide) (by decide)⟩

end TheLastBounce
